import Mathlib

/-!
Shallow embedding of `src/ChestCancerClassifier/pipeline/stage_04_model_evaluation.py`
(the `EvaluationPipeline` class and its `main` method).

The stage is sequential glue code with external effects.  We embed it as a
pure function from an input `World` — everything the run reads from its
environment (the evaluation config, the value returned by the external
evaluation function, the parse outcome of the two JSON files, the prior
content of `retrain_trigger.txt`, the current timestamp, and the exit
status of the `dvc repro training` subprocess) — to a `RunResult`: the
ordered trace of externally visible events (tracking-backend calls, the
file append, the subprocess invocation), the final content of
`retrain_trigger.txt`, and whether `main` returned normally or raised.

External collaborators (`ConfigurationManager`, `Evaluation`, `dagshub`,
`mlflow`, the logger) are modelled as always succeeding; their invocations
appear as trace events where a claim depends on them.
-/

/-- Python values as they occur in this stage: JSON-decodable data and the
values the evaluation function may return.  A float is carried as its
decimal representation string; the stage never computes with float values,
it only forwards and stringifies them. -/
inductive PyVal where
  | pyInt (n : Int)
  | pyFloat (r : String)
  | pyStr (s : String)
  | pyBool (b : Bool)
  | pyNone
  | pyList (xs : List PyVal)
  | pyDict (kvs : List (String × PyVal))

/-- Python truthiness (`bool(v)`) on the values above: empty containers,
zero numbers, the empty string, `False` and `None` are falsy. -/
def PyVal.truthy : PyVal → Bool
  | .pyInt n => n ≠ 0
  | .pyFloat r => r ≠ "0.0" && r ≠ "0" && r ≠ "-0.0"
  | .pyStr s => s ≠ ""
  | .pyBool b => b
  | .pyNone => false
  | .pyList xs => !xs.isEmpty
  | .pyDict kvs => !kvs.isEmpty

/-- `isinstance(v, dict)`. -/
def PyVal.isDict : PyVal → Bool
  | .pyDict _ => true
  | _ => false

/-- `isinstance(v, (int, float))`.  In Python `bool` is a subclass of
`int`, so booleans satisfy this test. -/
def PyVal.isNumeric : PyVal → Bool
  | .pyInt _ => true
  | .pyFloat _ => true
  | .pyBool _ => true
  | _ => false

/-- The key/value pairs of a dict (`v.items()`); only meaningful when
`v.isDict`. -/
def PyVal.dictItems : PyVal → List (String × PyVal)
  | .pyDict kvs => kvs
  | _ => []

/-- `len(v)` for the values `json.load` can return: defined for lists,
dicts and strings; `none` (a `TypeError` in Python) otherwise. -/
def PyVal.pyLen : PyVal → Option Nat
  | .pyList xs => some xs.length
  | .pyDict kvs => some kvs.length
  | .pyStr s => some s.length
  | _ => none

/-- Iteration order of `v` as used by `enumerate(v)`: list elements, dict
keys, the characters of a string. -/
def PyVal.pyElems : PyVal → List PyVal
  | .pyList xs => xs
  | .pyDict kvs => kvs.map (fun kv => .pyStr kv.1)
  | .pyStr s => s.data.map (fun c => .pyStr (String.singleton c))
  | _ => []

/-- The apostrophe character Python uses to quote strings in `repr`. -/
def quoteMark : String := String.singleton (Char.ofNat 39)

mutual
/-- Python `repr` on JSON-like values (escape sequences inside strings are
not modelled; the stage never inspects the produced text). -/
def pyReprOf : PyVal → String
  | .pyInt n => toString n
  | .pyFloat r => r
  | .pyStr s => quoteMark ++ s ++ quoteMark
  | .pyBool b => if b then "True" else "False"
  | .pyNone => "None"
  | .pyList xs => "[" ++ String.intercalate ", " (pyReprList xs) ++ "]"
  | .pyDict kvs => "\x7b" ++ String.intercalate ", " (pyReprItems kvs) ++ "\x7d"

def pyReprList : List PyVal → List String
  | [] => []
  | x :: xs => pyReprOf x :: pyReprList xs

def pyReprItems : List (String × PyVal) → List String
  | [] => []
  | kv :: kvs => (quoteMark ++ kv.1 ++ quoteMark ++ ": " ++ pyReprOf kv.2) :: pyReprItems kvs
end

/-- Python `str(v)`: identical to `repr` except on strings, where it
returns the string itself. -/
def pyStrOf : PyVal → String
  | .pyStr s => s
  | v => pyReprOf v

/-- The fields of the evaluation configuration that `main` reads. -/
structure EvalConfig where
  params_image_size : PyVal
  params_batch_size : PyVal

/-- Outcome of running `subprocess.run(["dvc", "repro", "training"], ...)`:
whether the process exited with status zero, and its captured output. -/
structure DvcResult where
  success : Bool
  stdout : String
  stderr : String

/-- The parse outcome of a JSON file on disk: `none` when the file does not
exist, `some (.error ())` when it exists but `json.load` raises
`json.JSONDecodeError`, `some (.ok v)` when it parses to `v`. -/
abbrev JsonFile := Option (Except Unit PyVal)

/-- Everything a run of `EvaluationPipeline.main` reads from its
environment. -/
structure World where
  evalConfig : EvalConfig
  /-- the value returned by `evaluation.evaluation()` -/
  evalResults : PyVal
  /-- parse outcome of `scores.json` -/
  scoresFile : JsonFile
  /-- parse outcome of `incorrect_predictions.json` -/
  incorrectFile : JsonFile
  /-- content of `retrain_trigger.txt` before the run -/
  triggerFileContent : String
  /-- `datetime.datetime.now().isoformat()` at the moment of the append -/
  now : String
  /-- outcome of the `dvc repro training` subprocess, were it invoked -/
  dvcResult : DvcResult

/-- Externally visible events of a run, in program order. -/
inductive Event where
  /-- `ConfigurationManager()` / `get_evaluation_config()` -/
  | configCall
  /-- `evaluation.evaluation()` -/
  | evalCall
  /-- `mlflow.log_metric(key, value)` -/
  | logMetric (key : String) (value : PyVal)
  /-- `mlflow.log_param(key, value)` -/
  | logParam (key : String) (value : PyVal)
  /-- append of `line` to the file `file` -/
  | appendFile (file : String) (line : String)
  /-- `subprocess.run(cmd, check=True, ...)` -/
  | runProc (cmd : List String)

/-- The exceptions `main` can let escape. `jsonDecodeError` is a possible
outcome value but is produced on no path: both `json.load` sites sit in a
`try` whose `except json.JSONDecodeError` handler only logs. -/
inductive Exn where
  | jsonDecodeError
  /-- `scores.items()` on a non-dict -/
  | attributeError
  /-- `len(incorrect_data)` on a value with no length -/
  | typeError
  /-- re-raised by the `except subprocess.CalledProcessError` handler -/
  | calledProcessError
deriving DecidableEq

/-- Whether `main` returned normally or raised. -/
inductive Outcome where
  | normal
  | raised (e : Exn)
deriving DecidableEq

/-- What a run leaves behind: the ordered event trace, the final content of
`retrain_trigger.txt`, and how `main` terminated. -/
structure RunResult where
  trace : List Event
  triggerContent : String
  outcome : Outcome

/-- The command invoked to re-trigger training. -/
def dvcCmd : List String := ["dvc", "repro", "training"]

/-- The line appended to `retrain_trigger.txt`:
`f"Retraining triggered at {datetime.datetime.now().isoformat()}\n"`. -/
def triggerLine (now : String) : String :=
  "Retraining triggered at " ++ now ++ "\n"

/-- Step 6 of `main`: `if results and isinstance(results, dict):` log each
item, numeric values via `log_metric`, others via `log_param(name, str(v))`;
otherwise log nothing. -/
def resultsEvents (results : PyVal) : List Event :=
  if results.truthy && results.isDict then
    results.dictItems.map (fun kv =>
      if kv.2.isNumeric then Event.logMetric kv.1 kv.2
      else Event.logParam kv.1 (.pyStr (pyStrOf kv.2)))
  else []

/-- Step 7 of `main`: the `scores.json` branch.  Returns the events it logs
and whether it raises.  A missing file is skipped; a `json.JSONDecodeError`
is caught and only logged; a parsed dict has each item passed to
`log_metric`; `scores.items()` on a parsed non-dict raises an
`AttributeError` that no handler catches. -/
def scoresStep : JsonFile → List Event × Bool
  | none => ([], false)
  | some (.error _) => ([], false)
  | some (.ok (.pyDict kvs)) =>
      (kvs.map (fun kv => Event.logMetric kv.1 kv.2), false)
  | some (.ok _) => ([], true)

/-- Step 8 of `main`: the `incorrect_predictions.json` branch.  Returns its
events, the final `retrain_trigger.txt` content, and the outcome.  A
missing file is skipped; a decode error is caught and only logged;
otherwise `num_incorrect = len(incorrect_data)` is logged as a metric
(`TypeError` when the value has no length), each entry is logged as the
parameter `incorrect_prediction_{idx}`, and when `num_incorrect > 5` a
timestamped line is appended to `retrain_trigger.txt` and
`dvc repro training` is run; a non-zero exit is re-raised. -/
def incorrectStep (file : JsonFile) (prior now : String) (dvc : DvcResult) :
    List Event × String × Outcome :=
  match file with
  | none => ([], prior, .normal)
  | some (.error _) => ([], prior, .normal)
  | some (.ok v) =>
      match v.pyLen with
      | none => ([], prior, .raised .typeError)
      | some n =>
          let logEvs : List Event :=
            Event.logMetric "num_incorrect_predictions" (.pyInt (n : Int)) ::
              (v.pyElems.enum.map (fun ip =>
                Event.logParam ("incorrect_prediction_" ++ toString ip.1) ip.2))
          if n > 5 then
            (logEvs ++
               [Event.appendFile "retrain_trigger.txt" (triggerLine now),
                Event.runProc dvcCmd],
             prior ++ triggerLine now,
             if dvc.success then .normal else .raised .calledProcessError)
          else (logEvs, prior, .normal)

/-- The unconditional prefix of every run: configuration retrieval, the two
`log_param` calls for `image_size` and `batch_size`, then the evaluation
invocation. -/
def preTrace (w : World) : List Event :=
  [Event.configCall,
   Event.logParam "image_size" w.evalConfig.params_image_size,
   Event.logParam "batch_size" w.evalConfig.params_batch_size,
   Event.evalCall]

namespace EvaluationPipeline

/-- `EvaluationPipeline.main`, assembled from the steps above in program
order.  When the `scores.json` step raises, the run aborts there and the
`incorrect_predictions.json` step never executes. -/
def main (w : World) : RunResult :=
  let pre := preTrace w
  let resEvs := resultsEvents w.evalResults
  let sc := scoresStep w.scoresFile
  if sc.2 then
    { trace := pre ++ resEvs ++ sc.1
      triggerContent := w.triggerFileContent
      outcome := .raised .attributeError }
  else
    let inc := incorrectStep w.incorrectFile w.triggerFileContent w.now w.dvcResult
    { trace := pre ++ resEvs ++ sc.1 ++ inc.1
      triggerContent := inc.2.1
      outcome := inc.2.2 }

end EvaluationPipeline

/-- The events contributed by the `incorrect_predictions.json` step, empty
when the run aborted in the `scores.json` step. -/
def incTail (w : World) : List Event :=
  if (scoresStep w.scoresFile).2 then []
  else (incorrectStep w.incorrectFile w.triggerFileContent w.now w.dvcResult).1

/-- `e.isEvalCall` tests for the evaluation-invocation event. -/
def Event.isEvalCall : Event → Bool
  | .evalCall => true
  | _ => false

/-- `e.isRunProcCall` tests for a subprocess-invocation event. -/
def Event.isRunProcCall : Event → Bool
  | .runProc _ => true
  | _ => false

lemma main_trace (w : World) :
    (EvaluationPipeline.main w).trace =
      preTrace w ++ resultsEvents w.evalResults ++ (scoresStep w.scoresFile).1 ++ incTail w := by
  by_cases h : (scoresStep w.scoresFile).2 <;>
    simp [EvaluationPipeline.main, incTail, h]

lemma main_outcome (w : World) :
    (EvaluationPipeline.main w).outcome =
      if (scoresStep w.scoresFile).2 then Outcome.raised .attributeError
      else (incorrectStep w.incorrectFile w.triggerFileContent w.now w.dvcResult).2.2 := by
  by_cases h : (scoresStep w.scoresFile).2 <;>
    simp [EvaluationPipeline.main, h]

lemma main_triggerContent (w : World) :
    (EvaluationPipeline.main w).triggerContent =
      if (scoresStep w.scoresFile).2 then w.triggerFileContent
      else (incorrectStep w.incorrectFile w.triggerFileContent w.now w.dvcResult).2.1 := by
  by_cases h : (scoresStep w.scoresFile).2 <;>
    simp [EvaluationPipeline.main, h]

lemma mem_resultsEvents {e : Event} {r : PyVal} (h : e ∈ resultsEvents r) :
    ∃ k x, e = Event.logMetric k x ∨ e = Event.logParam k x := by
  unfold resultsEvents at h
  split at h
  · rcases List.mem_map.1 h with ⟨kv, _, hkv⟩
    by_cases hnum : kv.2.isNumeric <;> simp [hnum] at hkv
    · exact ⟨kv.1, kv.2, .inl hkv.symm⟩
    · exact ⟨kv.1, .pyStr (pyStrOf kv.2), .inr hkv.symm⟩
  · simp at h

lemma mem_scoresEvents {e : Event} {j : JsonFile} (h : e ∈ (scoresStep j).1) :
    ∃ k x, e = Event.logMetric k x := by
  rcases j with _ | ⟨_ | v⟩
  · simp [scoresStep] at h
  · simp [scoresStep] at h
  · cases v with
    | pyDict kvs =>
        simp only [scoresStep] at h
        rcases List.mem_map.1 h with ⟨kv, _, hkv⟩
        exact ⟨kv.1, kv.2, hkv.symm⟩
    | pyInt n => simp [scoresStep] at h
    | pyFloat r => simp [scoresStep] at h
    | pyStr s => simp [scoresStep] at h
    | pyBool b => simp [scoresStep] at h
    | pyNone => simp [scoresStep] at h
    | pyList xs => simp [scoresStep] at h

/-- The events the `incorrect_predictions.json` step logs when the file
parses to a sized value. -/
def incLogEvs (v : PyVal) (n : Nat) : List Event :=
  Event.logMetric "num_incorrect_predictions" (.pyInt (n : Int)) ::
    v.pyElems.enum.map (fun ip =>
      Event.logParam ("incorrect_prediction_" ++ toString ip.1) ip.2)

lemma incorrectStep_ok {v : PyVal} {n : Nat} (p t : String) (d : DvcResult)
    (hn : v.pyLen = some n) :
    incorrectStep (some (.ok v)) p t d =
      if n > 5 then
        (incLogEvs v n ++
           [Event.appendFile "retrain_trigger.txt" (triggerLine t),
            Event.runProc dvcCmd],
         p ++ triggerLine t,
         if d.success then Outcome.normal else .raised .calledProcessError)
      else (incLogEvs v n, p, .normal) := by
  simp only [incorrectStep, hn, incLogEvs]

lemma mem_incorrectStep {e : Event} {f : JsonFile} {p t : String} {d : DvcResult}
    (h : e ∈ (incorrectStep f p t d).1) :
    (∃ k x, e = Event.logMetric k x) ∨ (∃ k x, e = Event.logParam k x) ∨
      e = Event.appendFile "retrain_trigger.txt" (triggerLine t) ∨
      e = Event.runProc dvcCmd := by
  rcases f with _ | ⟨_ | v⟩
  · simp [incorrectStep] at h
  · simp [incorrectStep] at h
  · rcases hL : v.pyLen with _ | n
    · simp [incorrectStep, hL] at h
    · rw [incorrectStep_ok p t d hL] at h
      have hlog : ∀ e, e ∈ incLogEvs v n →
          (∃ k x, e = Event.logMetric k x) ∨ (∃ k x, e = Event.logParam k x) := by
        intro e he
        rcases List.mem_cons.1 he with he | he
        · exact .inl ⟨_, _, he⟩
        · rcases List.mem_map.1 he with ⟨ip, _, hip⟩
          exact .inr ⟨_, _, hip.symm⟩
      by_cases h5 : n > 5
      · rw [if_pos h5] at h
        rcases List.mem_append.1 h with h | h
        · rcases hlog e h with h | h
          · exact .inl h
          · exact .inr (.inl h)
        · rcases List.mem_cons.1 h with h | h
          · exact .inr (.inr (.inl h))
          · rcases List.mem_cons.1 h with h | h
            · exact .inr (.inr (.inr h))
            · simp at h
      · rw [if_neg h5] at h
        rcases hlog e h with h | h
        · exact .inl h
        · exact .inr (.inl h)

lemma mem_incLogEvs {e : Event} {v : PyVal} {n : Nat} (h : e ∈ incLogEvs v n) :
    (∃ k x, e = Event.logMetric k x) ∨ (∃ k x, e = Event.logParam k x) := by
  rcases List.mem_cons.1 h with h | h
  · exact .inl ⟨_, _, h⟩
  · rcases List.mem_map.1 h with ⟨ip, _, hip⟩
    exact .inr ⟨_, _, hip.symm⟩

lemma appendFile_not_mem_preTrace (w : World) (f l : String) :
    Event.appendFile f l ∉ preTrace w := by simp [preTrace]

lemma runProc_not_mem_preTrace (w : World) (c : List String) :
    Event.runProc c ∉ preTrace w := by simp [preTrace]

lemma appendFile_not_mem_resultsEvents {f l : String} {r : PyVal} :
    Event.appendFile f l ∉ resultsEvents r := fun h => by
  rcases mem_resultsEvents h with ⟨k, x, h | h⟩ <;> simp at h

lemma runProc_not_mem_resultsEvents {c : List String} {r : PyVal} :
    Event.runProc c ∉ resultsEvents r := fun h => by
  rcases mem_resultsEvents h with ⟨k, x, h | h⟩ <;> simp at h

lemma appendFile_not_mem_scoresEvents {f l : String} {j : JsonFile} :
    Event.appendFile f l ∉ (scoresStep j).1 := fun h => by
  rcases mem_scoresEvents h with ⟨k, x, h⟩; simp at h

lemma runProc_not_mem_scoresEvents {c : List String} {j : JsonFile} :
    Event.runProc c ∉ (scoresStep j).1 := fun h => by
  rcases mem_scoresEvents h with ⟨k, x, h⟩; simp at h

lemma appendFile_mem_main_iff (w : World) (f l : String) :
    Event.appendFile f l ∈ (EvaluationPipeline.main w).trace ↔
      Event.appendFile f l ∈ incTail w := by
  rw [main_trace]
  constructor
  · intro h
    rcases List.mem_append.1 h with h | h
    · rcases List.mem_append.1 h with h | h
      · rcases List.mem_append.1 h with h | h
        · exact absurd h (appendFile_not_mem_preTrace w f l)
        · exact absurd h appendFile_not_mem_resultsEvents
      · exact absurd h appendFile_not_mem_scoresEvents
    · exact h
  · exact fun h => List.mem_append.2 (.inr h)

lemma runProc_mem_main_iff (w : World) (c : List String) :
    Event.runProc c ∈ (EvaluationPipeline.main w).trace ↔
      Event.runProc c ∈ incTail w := by
  rw [main_trace]
  constructor
  · intro h
    rcases List.mem_append.1 h with h | h
    · rcases List.mem_append.1 h with h | h
      · rcases List.mem_append.1 h with h | h
        · exact absurd h (runProc_not_mem_preTrace w c)
        · exact absurd h runProc_not_mem_resultsEvents
      · exact absurd h runProc_not_mem_scoresEvents
    · exact h
  · exact fun h => List.mem_append.2 (.inr h)

lemma mem_incTail {e : Event} {w : World} (h : e ∈ incTail w) :
    (scoresStep w.scoresFile).2 = false ∧
      e ∈ (incorrectStep w.incorrectFile w.triggerFileContent w.now w.dvcResult).1 := by
  unfold incTail at h
  by_cases hs : (scoresStep w.scoresFile).2
  · rw [if_pos hs] at h; simp at h
  · rw [if_neg hs] at h; exact ⟨by simpa using hs, h⟩

lemma runProc_mem_incorrectStep {c : List String} {f : JsonFile} {p t : String}
    {d : DvcResult} (h : Event.runProc c ∈ (incorrectStep f p t d).1) :
    c = dvcCmd ∧ ∃ v n, f = some (.ok v) ∧ v.pyLen = some n ∧ n > 5 := by
  rcases f with _ | ⟨_ | v⟩
  · simp [incorrectStep] at h
  · simp [incorrectStep] at h
  · rcases hL : v.pyLen with _ | n
    · simp [incorrectStep, hL] at h
    · rw [incorrectStep_ok p t d hL] at h
      by_cases h5 : n > 5
      · rw [if_pos h5] at h
        rcases List.mem_append.1 h with h | h
        · rcases mem_incLogEvs h with ⟨k, x, h⟩ | ⟨k, x, h⟩ <;> simp at h
        · rcases List.mem_cons.1 h with h | h
          · simp at h
          · rcases List.mem_cons.1 h with h | h
            · cases h; exact ⟨rfl, v, n, rfl, hL, h5⟩
            · simp at h
      · rw [if_neg h5] at h
        rcases mem_incLogEvs h with ⟨k, x, h⟩ | ⟨k, x, h⟩ <;> simp at h

lemma appendFile_mem_incorrectStep {a b : String} {f : JsonFile} {p t : String}
    {d : DvcResult} (h : Event.appendFile a b ∈ (incorrectStep f p t d).1) :
    a = "retrain_trigger.txt" ∧ b = triggerLine t ∧
      ∃ v n, f = some (.ok v) ∧ v.pyLen = some n ∧ n > 5 := by
  rcases f with _ | ⟨_ | v⟩
  · simp [incorrectStep] at h
  · simp [incorrectStep] at h
  · rcases hL : v.pyLen with _ | n
    · simp [incorrectStep, hL] at h
    · rw [incorrectStep_ok p t d hL] at h
      by_cases h5 : n > 5
      · rw [if_pos h5] at h
        rcases List.mem_append.1 h with h | h
        · rcases mem_incLogEvs h with ⟨k, x, h⟩ | ⟨k, x, h⟩ <;> simp at h
        · rcases List.mem_cons.1 h with h | h
          · cases h; exact ⟨rfl, rfl, v, n, rfl, hL, h5⟩
          · rcases List.mem_cons.1 h with h | h <;> simp at h
      · rw [if_neg h5] at h
        rcases mem_incLogEvs h with ⟨k, x, h⟩ | ⟨k, x, h⟩ <;> simp at h

lemma trigger_events_mem_incorrectStep {v : PyVal} {n : Nat} (p t : String)
    (d : DvcResult) (hn : v.pyLen = some n) (h5 : n > 5) :
    Event.appendFile "retrain_trigger.txt" (triggerLine t) ∈
        (incorrectStep (some (.ok v)) p t d).1 ∧
      Event.runProc dvcCmd ∈ (incorrectStep (some (.ok v)) p t d).1 := by
  rw [incorrectStep_ok p t d hn, if_pos h5]
  constructor
  · exact List.mem_append.2 (.inr (List.mem_cons.2 (.inl rfl)))
  · exact List.mem_append.2 (.inr (List.mem_cons.2 (.inr (List.mem_cons.2 (.inl rfl)))))

lemma mem_main_trace_of_incTail {w : World} {e : Event} (h : e ∈ incTail w) :
    e ∈ (EvaluationPipeline.main w).trace := by
  rw [main_trace]; exact List.mem_append.2 (.inr h)

lemma incTail_eq {w : World} {v : PyVal} (hs : (scoresStep w.scoresFile).2 = false)
    (hf : w.incorrectFile = some (.ok v)) :
    incTail w = (incorrectStep (some (.ok v)) w.triggerFileContent w.now w.dvcResult).1 := by
  unfold incTail
  rw [if_neg (by simp [hs]), hf]

lemma mem_incorrectStep_of_mem_incLogEvs {e : Event} {v : PyVal} {n : Nat}
    (p t : String) (d : DvcResult) (hn : v.pyLen = some n) (h : e ∈ incLogEvs v n) :
    e ∈ (incorrectStep (some (.ok v)) p t d).1 := by
  rw [incorrectStep_ok p t d hn]
  by_cases h5 : n > 5
  · rw [if_pos h5]; exact List.mem_append.2 (.inl h)
  · rw [if_neg h5]; exact h

lemma pyLen_eq_pyElems_length {v : PyVal} {n : Nat} (hn : v.pyLen = some n) :
    v.pyElems.length = n := by
  cases v <;> simp [PyVal.pyLen] at hn <;> rw [← hn]
  · show ((String.data _).map _).length = String.length _
    rw [List.length_map]
    rfl
  · rfl
  · show (List.map _ _).length = List.length _
    rw [List.length_map]

lemma countP_evalCall_preTrace (w : World) :
    (preTrace w).countP Event.isEvalCall = 1 := by
  simp [preTrace, List.countP_cons, Event.isEvalCall]

lemma countP_runProc_preTrace (w : World) :
    (preTrace w).countP Event.isRunProcCall = 0 := by
  simp [preTrace, List.countP_cons, Event.isRunProcCall]

lemma countP_evalCall_resultsEvents (r : PyVal) :
    (resultsEvents r).countP Event.isEvalCall = 0 :=
  List.countP_eq_zero.2 fun e he => by
    rcases mem_resultsEvents he with ⟨k, x, rfl | rfl⟩ <;> simp [Event.isEvalCall]

lemma countP_runProc_resultsEvents (r : PyVal) :
    (resultsEvents r).countP Event.isRunProcCall = 0 :=
  List.countP_eq_zero.2 fun e he => by
    rcases mem_resultsEvents he with ⟨k, x, rfl | rfl⟩ <;> simp [Event.isRunProcCall]

lemma countP_evalCall_scoresEvents (j : JsonFile) :
    (scoresStep j).1.countP Event.isEvalCall = 0 :=
  List.countP_eq_zero.2 fun e he => by
    rcases mem_scoresEvents he with ⟨k, x, rfl⟩; simp [Event.isEvalCall]

lemma countP_runProc_scoresEvents (j : JsonFile) :
    (scoresStep j).1.countP Event.isRunProcCall = 0 :=
  List.countP_eq_zero.2 fun e he => by
    rcases mem_scoresEvents he with ⟨k, x, rfl⟩; simp [Event.isRunProcCall]

lemma countP_evalCall_incTail (w : World) :
    (incTail w).countP Event.isEvalCall = 0 :=
  List.countP_eq_zero.2 fun e he => by
    rcases mem_incorrectStep (mem_incTail he).2 with ⟨k, x, rfl⟩ | ⟨k, x, rfl⟩ | rfl | rfl <;>
      simp [Event.isEvalCall]

lemma countP_runProc_incLogEvs (v : PyVal) (n : Nat) :
    (incLogEvs v n).countP Event.isRunProcCall = 0 :=
  List.countP_eq_zero.2 fun e he => by
    rcases mem_incLogEvs he with ⟨k, x, rfl⟩ | ⟨k, x, rfl⟩ <;> simp [Event.isRunProcCall]

lemma countP_runProc_incorrectStep (f : JsonFile) (p t : String) (d : DvcResult) :
    (incorrectStep f p t d).1.countP Event.isRunProcCall ≤ 1 := by
  rcases f with _ | ⟨_ | v⟩
  · simp [incorrectStep]
  · simp [incorrectStep]
  · rcases hL : v.pyLen with _ | n
    · simp [incorrectStep, hL]
    · rw [incorrectStep_ok p t d hL]
      by_cases h5 : n > 5
      · rw [if_pos h5]
        rw [List.countP_append, countP_runProc_incLogEvs]
        simp [List.countP_cons, Event.isRunProcCall]
      · rw [if_neg h5, countP_runProc_incLogEvs]
        exact Nat.zero_le 1

lemma countP_runProc_incTail (w : World) :
    (incTail w).countP Event.isRunProcCall ≤ 1 := by
  unfold incTail
  by_cases hs : (scoresStep w.scoresFile).2
  · rw [if_pos hs]; simp
  · rw [if_neg hs]; exact countP_runProc_incorrectStep _ _ _ _

lemma incorrectStep_outcome_cases (f : JsonFile) (p t : String) (d : DvcResult) :
    (incorrectStep f p t d).2.2 = .normal ∨
      (incorrectStep f p t d).2.2 = .raised .typeError ∨
      (incorrectStep f p t d).2.2 = .raised .calledProcessError := by
  rcases f with _ | ⟨_ | v⟩
  · simp [incorrectStep]
  · simp [incorrectStep]
  · rcases hL : v.pyLen with _ | n
    · simp [incorrectStep, hL]
    · rw [incorrectStep_ok p t d hL]
      by_cases h5 : n > 5
      · rw [if_pos h5]
        by_cases hd : d.success <;> simp [hd]
      · rw [if_neg h5]; simp

/-! Concrete environments used to exercise the theorems below. -/

/-- A parsed `incorrect_predictions.json` with six entries, one past the
threshold. -/
def incorrectSix : PyVal :=
  .pyList [.pyStr "img0.png", .pyStr "img1.png", .pyStr "img2.png",
           .pyStr "img3.png", .pyStr "img4.png", .pyStr "img5.png"]

/-- A run environment in which both JSON files parse, the evaluation
returns one numeric and one non-numeric metric, six incorrect predictions
are recorded, and `dvc repro training` succeeds. -/
def wTrigger : World :=
  { evalConfig := ⟨.pyList [.pyInt 224, .pyInt 224, .pyInt 3], .pyInt 16⟩
    evalResults := .pyDict [("accuracy", .pyFloat "0.92"), ("model_name", .pyStr "vgg16")]
    scoresFile := some (.ok (.pyDict [("loss", .pyFloat "0.31")]))
    incorrectFile := some (.ok incorrectSix)
    triggerFileContent := "Retraining triggered at 2026-01-01T00:00:00\n"
    now := "2026-10-12T12:00:00"
    dvcResult := ⟨true, "done", ""⟩ }

/-- Same environment, but the `dvc repro training` subprocess exits with a
non-zero status. -/
def wTriggerFail : World :=
  { wTrigger with dvcResult := ⟨false, "", "stage training failed"⟩ }

/-- An environment in which neither `scores.json` nor
`incorrect_predictions.json` exists. -/
def wMissing : World :=
  { wTrigger with scoresFile := none, incorrectFile := none }

/-- An environment in which both JSON files exist but hold invalid JSON. -/
def wDecode : World :=
  { wTrigger with scoresFile := some (.error ()), incorrectFile := some (.error ()) }

/-- An environment in which the evaluation function returns a list instead
of a dict. -/
def wListResults : World :=
  { wTrigger with evalResults := .pyList [.pyFloat "0.92"] }

/-- An environment in which `scores.json` parses to a JSON array, so
`scores.items()` raises an `AttributeError`, while
`incorrect_predictions.json` does not exist. -/
def wScoresNonDict : World :=
  { wTrigger with scoresFile := some (.ok (.pyList [.pyFloat "0.31"])), incorrectFile := none }

/-- An environment in which `scores.json` holds invalid JSON and the
retraining subprocess fails. -/
def wDecodeThenDvcFail : World :=
  { wTrigger with scoresFile := some (.error ()),
                  dvcResult := ⟨false, "", "stage training failed"⟩ }

/-- C1: whenever `incorrect_predictions.json` exists and is parsed during
the run to a collection of length `n`, the retraining trigger — the append
to `retrain_trigger.txt` and the `dvc repro training` invocation — fires
exactly when `n > 5`; for `n ≤ 5` neither event occurs and the trigger
file is untouched. -/
theorem C1_retrain_trigger_iff_threshold (w : World) (v : PyVal) (n : Nat)
    (hs : (scoresStep w.scoresFile).2 = false)
    (hf : w.incorrectFile = some (.ok v))
    (hn : v.pyLen = some n) :
    (Event.appendFile "retrain_trigger.txt" (triggerLine w.now) ∈
        (EvaluationPipeline.main w).trace ↔ n > 5) ∧
    (Event.runProc dvcCmd ∈ (EvaluationPipeline.main w).trace ↔ n > 5) ∧
    (¬ n > 5 → (EvaluationPipeline.main w).triggerContent = w.triggerFileContent) := by
  have hTail := incTail_eq hs hf
  refine ⟨⟨fun h => ?_, fun h5 => ?_⟩, ⟨fun h => ?_, fun h5 => ?_⟩, fun h5 => ?_⟩
  · have h' := (appendFile_mem_main_iff w _ _).1 h
    rw [hTail] at h'
    rcases (appendFile_mem_incorrectStep h').2.2 with ⟨v', n', hv', hn', h5'⟩
    have hv : v' = v := by injection hv' with h1; injection h1 with h2; exact h2.symm
    subst hv
    rw [hn] at hn'
    injection hn' with h2
    exact h2 ▸ h5'
  · rw [appendFile_mem_main_iff, hTail]
    exact (trigger_events_mem_incorrectStep _ _ _ hn h5).1
  · have h' := (runProc_mem_main_iff w _).1 h
    rw [hTail] at h'
    rcases (runProc_mem_incorrectStep h').2 with ⟨v', n', hv', hn', h5'⟩
    have hv : v' = v := by injection hv' with h1; injection h1 with h2; exact h2.symm
    subst hv
    rw [hn] at hn'
    injection hn' with h2
    exact h2 ▸ h5'
  · rw [runProc_mem_main_iff, hTail]
    exact (trigger_events_mem_incorrectStep _ _ _ hn h5).2
  · rw [main_triggerContent, if_neg (by simp [hs]), hf,
      incorrectStep_ok _ _ _ hn, if_neg h5]

/-- C1 at a concrete environment: six incorrect predictions, threshold
exceeded. -/
theorem C1_retrain_trigger_iff_threshold_witness :
    (scoresStep wTrigger.scoresFile).2 = false ∧
    wTrigger.incorrectFile = some (.ok incorrectSix) ∧
    incorrectSix.pyLen = some 6 ∧
    ((Event.appendFile "retrain_trigger.txt" (triggerLine wTrigger.now) ∈
        (EvaluationPipeline.main wTrigger).trace ↔ 6 > 5) ∧
     (Event.runProc dvcCmd ∈ (EvaluationPipeline.main wTrigger).trace ↔ 6 > 5) ∧
     (¬ 6 > 5 → (EvaluationPipeline.main wTrigger).triggerContent =
        wTrigger.triggerFileContent)) :=
  ⟨rfl, rfl, rfl, C1_retrain_trigger_iff_threshold wTrigger incorrectSix 6 rfl rfl rfl⟩

/-- C3: when the retraining trigger fires, `retrain_trigger.txt` is
appended to, never overwritten: the final content is the prior content
followed by exactly one timestamped line. -/
theorem C3_trigger_file_appended (w : World) (v : PyVal) (n : Nat)
    (hs : (scoresStep w.scoresFile).2 = false)
    (hf : w.incorrectFile = some (.ok v))
    (hn : v.pyLen = some n) (h5 : n > 5) :
    (EvaluationPipeline.main w).triggerContent =
      w.triggerFileContent ++ triggerLine w.now ∧
    triggerLine w.now = "Retraining triggered at " ++ w.now ++ "\n" := by
  refine ⟨?_, rfl⟩
  rw [main_triggerContent, if_neg (by simp [hs]), hf,
    incorrectStep_ok _ _ _ hn, if_pos h5]

/-- C3 at a concrete environment with non-empty prior trigger-file
content. -/
theorem C3_trigger_file_appended_witness :
    (scoresStep wTrigger.scoresFile).2 = false ∧ 6 > 5 ∧
    ((EvaluationPipeline.main wTrigger).triggerContent =
        wTrigger.triggerFileContent ++ triggerLine wTrigger.now ∧
      triggerLine wTrigger.now =
        "Retraining triggered at " ++ wTrigger.now ++ "\n") :=
  ⟨rfl, by decide,
    C3_trigger_file_appended wTrigger incorrectSix 6 rfl rfl rfl (by decide)⟩

/-- C9: when the triggered `dvc repro training` subprocess exits non-zero,
`main` re-raises the `CalledProcessError`, and the line already appended to
`retrain_trigger.txt` persists — the trigger is not rolled back. -/
theorem C9_dvc_failure_raises_and_keeps_append (w : World) (v : PyVal) (n : Nat)
    (hs : (scoresStep w.scoresFile).2 = false)
    (hf : w.incorrectFile = some (.ok v))
    (hn : v.pyLen = some n) (h5 : n > 5)
    (hd : w.dvcResult.success = false) :
    (EvaluationPipeline.main w).outcome = .raised .calledProcessError ∧
    (EvaluationPipeline.main w).triggerContent =
      w.triggerFileContent ++ triggerLine w.now ∧
    Event.appendFile "retrain_trigger.txt" (triggerLine w.now) ∈
      (EvaluationPipeline.main w).trace := by
  refine ⟨?_, ?_, ?_⟩
  · rw [main_outcome, if_neg (by simp [hs]), hf,
      incorrectStep_ok _ _ _ hn, if_pos h5]
    simp [hd]
  · rw [main_triggerContent, if_neg (by simp [hs]), hf,
      incorrectStep_ok _ _ _ hn, if_pos h5]
  · rw [appendFile_mem_main_iff, incTail_eq hs hf]
    exact (trigger_events_mem_incorrectStep _ _ _ hn h5).1

/-- C9 at a concrete environment where the subprocess fails. -/
theorem C9_dvc_failure_raises_and_keeps_append_witness :
    wTriggerFail.dvcResult.success = false ∧
    ((EvaluationPipeline.main wTriggerFail).outcome = .raised .calledProcessError ∧
     (EvaluationPipeline.main wTriggerFail).triggerContent =
        wTriggerFail.triggerFileContent ++ triggerLine wTriggerFail.now ∧
     Event.appendFile "retrain_trigger.txt" (triggerLine wTriggerFail.now) ∈
        (EvaluationPipeline.main wTriggerFail).trace) :=
  ⟨rfl, C9_dvc_failure_raises_and_keeps_append wTriggerFail incorrectSix 6
    rfl rfl rfl (by decide) rfl⟩

/-- C2 fails as stated: with `incorrect_predictions.json` absent, `main`
does not always complete normally — when `scores.json` parses to a JSON
array, `scores.items()` raises an uncaught `AttributeError`. -/
theorem C2_counterexample :
    wScoresNonDict.incorrectFile = none ∧
      (EvaluationPipeline.main wScoresNonDict).outcome =
        .raised .attributeError ∧
      (EvaluationPipeline.main wScoresNonDict).outcome ≠ .normal :=
  ⟨rfl, rfl, by decide⟩

/-- C2 (amended): if `scores.json` does not exist, the scores-logging step
contributes nothing and does not raise, and execution continues to the
incorrect-predictions step; likewise, if `incorrect_predictions.json` does
not exist, the incorrect-predictions step (including any retraining
trigger) is skipped, and `main` completes normally provided the scores step
itself did not raise. -/
theorem C2_missing_files_skipped (w : World) :
    (w.scoresFile = none →
      scoresStep w.scoresFile = ([], false) ∧
      (EvaluationPipeline.main w).trace =
        preTrace w ++ resultsEvents w.evalResults ++
          (incorrectStep w.incorrectFile w.triggerFileContent w.now w.dvcResult).1) ∧
    (w.incorrectFile = none →
      incorrectStep w.incorrectFile w.triggerFileContent w.now w.dvcResult =
        ([], w.triggerFileContent, .normal) ∧
      (EvaluationPipeline.main w).triggerContent = w.triggerFileContent ∧
      ((scoresStep w.scoresFile).2 = false →
        (EvaluationPipeline.main w).outcome = .normal)) := by
  constructor
  · intro hs
    have h1 : scoresStep w.scoresFile = ([], false) := by rw [hs]; rfl
    refine ⟨h1, ?_⟩
    rw [main_trace]
    unfold incTail
    rw [h1]
    simp
  · intro hi
    have h2 : incorrectStep w.incorrectFile w.triggerFileContent w.now w.dvcResult =
        ([], w.triggerFileContent, .normal) := by rw [hi]; rfl
    refine ⟨h2, ?_, ?_⟩
    · rw [main_triggerContent]
      by_cases hsc : (scoresStep w.scoresFile).2
      · rw [if_pos hsc]
      · rw [if_neg hsc, h2]
    · intro hsf
      rw [main_outcome, if_neg (by simp [hsf]), h2]

/-- C2 (amended) at a concrete environment where both files are absent. -/
theorem C2_missing_files_skipped_witness :
    (scoresStep wMissing.scoresFile = ([], false) ∧
      (EvaluationPipeline.main wMissing).trace =
        preTrace wMissing ++ resultsEvents wMissing.evalResults ++
          (incorrectStep wMissing.incorrectFile wMissing.triggerFileContent
            wMissing.now wMissing.dvcResult).1) ∧
    (incorrectStep wMissing.incorrectFile wMissing.triggerFileContent
        wMissing.now wMissing.dvcResult =
      ([], wMissing.triggerFileContent, .normal)) ∧
    (EvaluationPipeline.main wMissing).triggerContent =
      wMissing.triggerFileContent ∧
    (EvaluationPipeline.main wMissing).outcome = .normal := by
  have h := C2_missing_files_skipped wMissing
  exact ⟨h.1 rfl, (h.2 rfl).1, (h.2 rfl).2.1, (h.2 rfl).2.2 rfl⟩

lemma mem_resultsEvents_of_dict {r : PyVal} (hd : r.isDict = true)
    {kv : String × PyVal} (hkv : kv ∈ r.dictItems) :
    (if kv.2.isNumeric then Event.logMetric kv.1 kv.2
     else Event.logParam kv.1 (.pyStr (pyStrOf kv.2))) ∈ resultsEvents r := by
  rcases r with _ | _ | _ | _ | _ | _ | kvs <;> simp [PyVal.isDict] at hd
  simp only [PyVal.dictItems] at hkv
  have hne : kvs ≠ [] := List.ne_nil_of_mem hkv
  unfold resultsEvents
  rw [if_pos (by simp [PyVal.truthy, PyVal.isDict, hne])]
  exact List.mem_map.2 ⟨kv, hkv, rfl⟩

/-- C4: when the evaluation function returns a dict, every item whose value
is numeric (an `int` or `float`, which in Python includes `bool`) is logged
as a metric under its key, and every other item is logged as a parameter
under its key with the value converted to its string form. -/
theorem C4_results_items_logged (w : World)
    (hd : w.evalResults.isDict = true) :
    ∀ kv ∈ w.evalResults.dictItems,
      (kv.2.isNumeric = true →
        Event.logMetric kv.1 kv.2 ∈ (EvaluationPipeline.main w).trace) ∧
      (kv.2.isNumeric = false →
        Event.logParam kv.1 (.pyStr (pyStrOf kv.2)) ∈
          (EvaluationPipeline.main w).trace) := by
  intro kv hkv
  have hmem := mem_resultsEvents_of_dict hd hkv
  have hmain : ∀ e, e ∈ resultsEvents w.evalResults →
      e ∈ (EvaluationPipeline.main w).trace := by
    intro e he
    rw [main_trace]
    exact List.mem_append.2 (.inl (List.mem_append.2 (.inl (List.mem_append.2 (.inr he)))))
  constructor
  · intro hnum
    rw [if_pos hnum] at hmem
    exact hmain _ hmem
  · intro hnum
    rw [if_neg (by simp [hnum])] at hmem
    exact hmain _ hmem

/-- C4 at a concrete environment: a numeric metric and a string value. -/
theorem C4_results_items_logged_witness :
    Event.logMetric "accuracy" (.pyFloat "0.92") ∈
      (EvaluationPipeline.main wTrigger).trace ∧
    Event.logParam "model_name" (.pyStr "vgg16") ∈
      (EvaluationPipeline.main wTrigger).trace := by
  have h := C4_results_items_logged wTrigger rfl
  refine ⟨(h ("accuracy", .pyFloat "0.92") ?_).1 rfl,
          (h ("model_name", .pyStr "vgg16") ?_).2 rfl⟩
  · exact List.mem_cons_self _ _
  · exact List.mem_cons_of_mem _ (List.mem_cons_self _ _)

/-- C5: when `incorrect_predictions.json` is parsed during the run to a
collection of `n` entries, the metric `num_incorrect_predictions` is logged
with value `n`, and the entry at each index `i` is logged as the parameter
`incorrect_prediction_i`. -/
theorem C5_incorrect_predictions_logged (w : World) (v : PyVal) (n : Nat)
    (hs : (scoresStep w.scoresFile).2 = false)
    (hf : w.incorrectFile = some (.ok v))
    (hn : v.pyLen = some n) :
    v.pyElems.length = n ∧
    Event.logMetric "num_incorrect_predictions" (.pyInt (n : Int)) ∈
      (EvaluationPipeline.main w).trace ∧
    ∀ ip ∈ v.pyElems.enum,
      Event.logParam ("incorrect_prediction_" ++ toString ip.1) ip.2 ∈
        (EvaluationPipeline.main w).trace := by
  have hTail := incTail_eq hs hf
  have hmain : ∀ e, e ∈ incLogEvs v n → e ∈ (EvaluationPipeline.main w).trace := by
    intro e he
    apply mem_main_trace_of_incTail
    rw [hTail]
    exact mem_incorrectStep_of_mem_incLogEvs _ _ _ hn he
  refine ⟨pyLen_eq_pyElems_length hn, ?_, ?_⟩
  · exact hmain _ (List.mem_cons_self _ _)
  · intro ip hip
    exact hmain _ (List.mem_cons_of_mem _ (List.mem_map.2 ⟨ip, hip, rfl⟩))

/-- C5 at a concrete environment with six entries. -/
theorem C5_incorrect_predictions_logged_witness :
    incorrectSix.pyElems.length = 6 ∧
    Event.logMetric "num_incorrect_predictions" (.pyInt 6) ∈
      (EvaluationPipeline.main wTrigger).trace ∧
    ∀ ip ∈ incorrectSix.pyElems.enum,
      Event.logParam ("incorrect_prediction_" ++ toString ip.1) ip.2 ∈
        (EvaluationPipeline.main wTrigger).trace :=
  C5_incorrect_predictions_logged wTrigger incorrectSix 6 rfl rfl rfl

/-- C6: the steps of `main` occur in a fixed order — configuration
retrieval first, then the evaluation invocation, then the
metric/parameter logging of the evaluation results, then the `scores.json`
branch, then the `incorrect_predictions.json` branch; and when the trigger
fires, the append to `retrain_trigger.txt` immediately precedes the
subprocess invocation.  (The two configuration parameters `image_size` and
`batch_size` are logged between configuration retrieval and the evaluation
invocation.) -/
theorem C6_step_order (w : World) :
    (EvaluationPipeline.main w).trace =
      [Event.configCall,
       Event.logParam "image_size" w.evalConfig.params_image_size,
       Event.logParam "batch_size" w.evalConfig.params_batch_size,
       Event.evalCall] ++
        resultsEvents w.evalResults ++ (scoresStep w.scoresFile).1 ++ incTail w ∧
    ∀ v n, w.incorrectFile = some (.ok v) → v.pyLen = some n → n > 5 →
      (scoresStep w.scoresFile).2 = false →
      ∃ base, incTail w = base ++
        [Event.appendFile "retrain_trigger.txt" (triggerLine w.now),
         Event.runProc dvcCmd] := by
  constructor
  · rw [main_trace]; rfl
  · intro v n hf hn h5 hs
    rw [incTail_eq hs hf, incorrectStep_ok _ _ _ hn, if_pos h5]
    exact ⟨incLogEvs v n, rfl⟩

/-- C6 at a concrete environment in which the trigger fires. -/
theorem C6_step_order_witness :
    (EvaluationPipeline.main wTrigger).trace =
      [Event.configCall,
       Event.logParam "image_size" wTrigger.evalConfig.params_image_size,
       Event.logParam "batch_size" wTrigger.evalConfig.params_batch_size,
       Event.evalCall] ++
        resultsEvents wTrigger.evalResults ++
        (scoresStep wTrigger.scoresFile).1 ++ incTail wTrigger ∧
    ∃ base, incTail wTrigger = base ++
      [Event.appendFile "retrain_trigger.txt" (triggerLine wTrigger.now),
       Event.runProc dvcCmd] :=
  ⟨(C6_step_order wTrigger).1,
   (C6_step_order wTrigger).2 incorrectSix 6 rfl rfl (by decide) rfl⟩

/-- C7: in every run the evaluation function is invoked exactly once, a
subprocess is invoked at most once, and any invoked subprocess is
`dvc repro training` run only because `incorrect_predictions.json` parsed
to a value of length strictly greater than 5. -/
theorem C7_eval_once_dvc_at_most_once (w : World) :
    (EvaluationPipeline.main w).trace.countP Event.isEvalCall = 1 ∧
    (EvaluationPipeline.main w).trace.countP Event.isRunProcCall ≤ 1 ∧
    ∀ c, Event.runProc c ∈ (EvaluationPipeline.main w).trace →
      c = dvcCmd ∧
        ∃ v n, w.incorrectFile = some (.ok v) ∧ v.pyLen = some n ∧ n > 5 := by
  refine ⟨?_, ?_, ?_⟩
  · rw [main_trace, List.countP_append, List.countP_append, List.countP_append,
      countP_evalCall_preTrace, countP_evalCall_resultsEvents,
      countP_evalCall_scoresEvents, countP_evalCall_incTail]
  · rw [main_trace, List.countP_append, List.countP_append, List.countP_append,
      countP_runProc_preTrace, countP_runProc_resultsEvents,
      countP_runProc_scoresEvents]
    simpa using countP_runProc_incTail w
  · intro c h
    exact runProc_mem_incorrectStep (mem_incTail ((runProc_mem_main_iff w c).1 h)).2

/-- C7 at a concrete environment in which the subprocess is invoked. -/
theorem C7_eval_once_dvc_at_most_once_witness :
    (EvaluationPipeline.main wTrigger).trace.countP Event.isEvalCall = 1 ∧
    (EvaluationPipeline.main wTrigger).trace.countP Event.isRunProcCall ≤ 1 ∧
    (dvcCmd = dvcCmd ∧
      ∃ v n, wTrigger.incorrectFile = some (.ok v) ∧ v.pyLen = some n ∧ n > 5) := by
  have h := C7_eval_once_dvc_at_most_once wTrigger
  have hmem : Event.runProc dvcCmd ∈ (EvaluationPipeline.main wTrigger).trace := by
    rw [runProc_mem_main_iff,
      incTail_eq (rfl : (scoresStep wTrigger.scoresFile).2 = false)
        (rfl : wTrigger.incorrectFile = some (.ok incorrectSix))]
    exact (trigger_events_mem_incorrectStep _ _ _
      (rfl : incorrectSix.pyLen = some 6) (by decide)).2
  exact ⟨h.1, h.2.1, h.2.2 dvcCmd hmem⟩

/-- C8 fails as stated: a decode error in `scores.json` is caught and the
run continues, but `main` does not always return normally afterwards — here
the retraining subprocess fails and `main` raises its
`CalledProcessError`. -/
theorem C8_counterexample :
    wDecodeThenDvcFail.scoresFile = some (.error ()) ∧
    (EvaluationPipeline.main wDecodeThenDvcFail).outcome =
      .raised .calledProcessError ∧
    (EvaluationPipeline.main wDecodeThenDvcFail).outcome ≠ .normal :=
  ⟨rfl, rfl, by decide⟩

/-- C8 (amended): a `json.JSONDecodeError` from either file is caught
inside `main` and never propagated; after a `scores.json` decode error the
run continues to the incorrect-predictions step; after an
`incorrect_predictions.json` decode error nothing is logged from that file,
the trigger file is untouched, the retraining trigger does not fire, and
`main` returns normally unless the scores step itself raised.  A later step
may still raise for an unrelated reason (a failing retraining
subprocess). -/
theorem C8_decode_error_contained (w : World) :
    (EvaluationPipeline.main w).outcome ≠ .raised .jsonDecodeError ∧
    (w.scoresFile = some (.error ()) →
      scoresStep w.scoresFile = ([], false) ∧
      (EvaluationPipeline.main w).trace =
        preTrace w ++ resultsEvents w.evalResults ++
          (incorrectStep w.incorrectFile w.triggerFileContent w.now w.dvcResult).1) ∧
    (w.incorrectFile = some (.error ()) →
      incorrectStep w.incorrectFile w.triggerFileContent w.now w.dvcResult =
        ([], w.triggerFileContent, .normal) ∧
      (EvaluationPipeline.main w).triggerContent = w.triggerFileContent ∧
      (EvaluationPipeline.main w).outcome =
        (if (scoresStep w.scoresFile).2 then Outcome.raised .attributeError
         else .normal)) := by
  refine ⟨?_, ?_, ?_⟩
  · rw [main_outcome]
    by_cases hsc : (scoresStep w.scoresFile).2
    · rw [if_pos hsc]; decide
    · rw [if_neg hsc]
      rcases incorrectStep_outcome_cases w.incorrectFile w.triggerFileContent
        w.now w.dvcResult with h | h | h <;> rw [h] <;> decide
  · intro hs
    have h1 : scoresStep w.scoresFile = ([], false) := by rw [hs]; rfl
    refine ⟨h1, ?_⟩
    rw [main_trace]
    unfold incTail
    rw [h1]
    simp
  · intro hi
    have h2 : incorrectStep w.incorrectFile w.triggerFileContent w.now w.dvcResult =
        ([], w.triggerFileContent, .normal) := by rw [hi]; rfl
    refine ⟨h2, ?_, ?_⟩
    · rw [main_triggerContent]
      by_cases hsc : (scoresStep w.scoresFile).2
      · rw [if_pos hsc]
      · rw [if_neg hsc, h2]
    · rw [main_outcome]
      by_cases hsc : (scoresStep w.scoresFile).2
      · rw [if_pos hsc, if_pos hsc]
      · rw [if_neg hsc, if_neg hsc, h2]

/-- C8 (amended) at a concrete environment where both files hold invalid
JSON. -/
theorem C8_decode_error_contained_witness :
    (EvaluationPipeline.main wDecode).outcome ≠ .raised .jsonDecodeError ∧
    (scoresStep wDecode.scoresFile = ([], false) ∧
      (EvaluationPipeline.main wDecode).trace =
        preTrace wDecode ++ resultsEvents wDecode.evalResults ++
          (incorrectStep wDecode.incorrectFile wDecode.triggerFileContent
            wDecode.now wDecode.dvcResult).1) ∧
    (incorrectStep wDecode.incorrectFile wDecode.triggerFileContent
        wDecode.now wDecode.dvcResult =
      ([], wDecode.triggerFileContent, .normal)) ∧
    (EvaluationPipeline.main wDecode).triggerContent =
      wDecode.triggerFileContent ∧
    (EvaluationPipeline.main wDecode).outcome =
      (if (scoresStep wDecode.scoresFile).2 then Outcome.raised .attributeError
       else .normal) := by
  have h := C8_decode_error_contained wDecode
  exact ⟨h.1, h.2.1 rfl, (h.2.2 rfl).1, (h.2.2 rfl).2.1, (h.2.2 rfl).2.2⟩

/-- C10: when the evaluation function returns a falsy value or a non-dict,
no metric or parameter is logged from that result, and the run continues to
the `scores.json` step, whose behaviour (and everything after it) is
unaffected. -/
theorem C10_non_dict_results_skipped (w : World)
    (h : (w.evalResults.truthy && w.evalResults.isDict) = false) :
    resultsEvents w.evalResults = [] ∧
    (EvaluationPipeline.main w).trace =
      preTrace w ++ (scoresStep w.scoresFile).1 ++ incTail w ∧
    (EvaluationPipeline.main w).outcome =
      (if (scoresStep w.scoresFile).2 then Outcome.raised .attributeError
       else (incorrectStep w.incorrectFile w.triggerFileContent
              w.now w.dvcResult).2.2) := by
  have h0 : resultsEvents w.evalResults = [] := by
    unfold resultsEvents
    rw [if_neg (by simp [h])]
  refine ⟨h0, ?_, main_outcome w⟩
  rw [main_trace, h0]
  simp

/-- C10 at a concrete environment where the evaluation returns a list. -/
theorem C10_non_dict_results_skipped_witness :
    (wListResults.evalResults.truthy && wListResults.evalResults.isDict) = false ∧
    (resultsEvents wListResults.evalResults = [] ∧
     (EvaluationPipeline.main wListResults).trace =
        preTrace wListResults ++ (scoresStep wListResults.scoresFile).1 ++
          incTail wListResults ∧
     (EvaluationPipeline.main wListResults).outcome =
        (if (scoresStep wListResults.scoresFile).2 then Outcome.raised .attributeError
         else (incorrectStep wListResults.incorrectFile
                wListResults.triggerFileContent wListResults.now
                wListResults.dvcResult).2.2)) :=
  ⟨rfl, C10_non_dict_results_skipped wListResults rfl⟩
